import Mathlib

/-!
Shallow embedding of src/web_crawler.py (class WebCrawler) and proofs about it.

Modelling conventions:
* URLs are structured values (scheme, host, port, path); the external
  urllib capabilities urlparse/urljoin are absorbed: anchors and image
  sources of a page are carried as already-resolved absolute URLs, and
  urlparse(u).netloc is the (host, port) projection of the structure.
* HTTP transport is an oracle web : Url -> Option Page.  some page means
  the GET returned 2xx and the body parsed; none means any transient
  failure (timeout, connection error, non-2xx raised by raise_for_status,
  parse error).
* md5 digests are modelled as a collision-free fingerprint capability:
  get_image_hash is the byte list itself, get_url_hash the rendered URL.
* File writes are modelled as values appended to explicit output lists
  (FileWrite), never as effects.
* Machine time (timestamps, sleep) is abstracted: the politeness sleep has
  no observable effect on the crawl state, and filename timestamps are a
  fixed placeholder.
* The image worker pool of extract_images is modelled twice: the crawl
  loop uses the serialized fold (order of as_completed does not affect the
  counts the loop claims are about), and the intra-batch interleavings of
  download_image (lines 204-233) are modelled separately as a small-step
  system over the shared image_hashes set, reflecting that the check at
  line 208 and the insert at line 212 are distinct atomic actions with no
  lock between them.
-/

namespace WebCrawler

/-- A parsed absolute URL; urlparse(u).netloc corresponds to (host, port). -/
structure Url where
  scheme : String
  host : String
  port : String
  path : String
deriving DecidableEq, Repr

/-- Rendering used where the Python code treats the URL as a string. -/
def Url.render (u : Url) : String :=
  u.scheme ++ "://" ++ u.host ++ (if u.port == "" then "" else ":" ++ u.port) ++ u.path

/-- Model of lines 80-82: md5 of the URL string, as an injective fingerprint. -/
def get_url_hash (u : Url) : String :=
  u.render

/-- Model of lines 84-86: md5 of the image bytes, as a collision-free digest. -/
def get_image_hash (data : List Nat) : List Nat :=
  data

/-- netloc equality test used by the origin filter (line 257). -/
def sameNetloc (a b : Url) : Bool :=
  a.host == b.host && a.port == b.port

/-- startswith http:// or https:// test of line 255 on a structured URL. -/
def isHttpUrl (u : Url) : Bool :=
  u.scheme == "http" || u.scheme == "https"

/-- A node of the parsed document (the BeautifulSoup tree, flattened). -/
structure Node where
  tag : String
  text : String
deriving DecidableEq, Repr

/-- A file persisted by the crawler: name and full content. -/
structure FileWrite where
  name : String
  content : String
deriving DecidableEq, Repr

/-- Outcome of one image GET (download_image lines 195-204): transient
failure, non-image Content-Type, or the response body bytes. -/
inductive ImgOutcome where
  | fetchFail
  | notImage
  | body (data : List Nat)
deriving DecidableEq, Repr

/-- A fetched page as the crawl loop consumes it: the parsed node tree,
the urljoin-resolved anchor targets (of a tags carrying href), and the
outcomes of its image downloads in submission order. -/
structure Page where
  doc : List Node
  anchors : List Url
  images : List ImgOutcome
deriving DecidableEq, Repr

/-- The stats dictionary of crawl (lines 272-277). -/
structure Stats where
  pages_crawled : Nat
  texts_saved : Nat
  images_downloaded : Nat
  errors : Nat
deriving DecidableEq, Repr

/-- Constructor arguments of WebCrawler.__init__ that the loop reads. -/
structure Config where
  base_url : Url
  max_pages : Nat
  max_depth : Nat
deriving Repr

/-- Crawler state threaded through the loop.  queue, visited,
image_hashes and stats mirror the Python attributes; fetchLog (page GETs
actually issued, with depth), enqLog (entries appended to the frontier
after the seed), textLog (text files persisted) and passedCheck (loop
iterations that got past the line-282 visited check) are ghost
observations used only in statements. -/
structure CrawlState where
  queue : List (Url × Nat)
  visited : List Url
  image_hashes : List (List Nat)
  stats : Stats
  fetchLog : List (Url × Nat)
  enqLog : List (Url × Nat)
  textLog : List FileWrite
  passedCheck : Nat
deriving DecidableEq, Repr

/-- Lines 127-128: remove script and style nodes from the document. -/
def stripTags (doc : List Node) : List Node :=
  doc.filter (fun n => !(n.tag == "script" || n.tag == "style"))

/-- Line 131: soup.get_text with newline separator (capability). -/
def get_text (doc : List Node) : String :=
  String.intercalate "\n" (doc.map Node.text)

/-- ASCII whitespace, as Python str.strip treats it. -/
def isWs (c : Char) : Bool :=
  c == ' ' || c == '\n' || c == '\t' || c == '\r'

/-- str.strip on a character list. -/
def trimChars (cs : List Char) : List Char :=
  ((cs.dropWhile isWs).reverse.dropWhile isWs).reverse

/-- str.splitlines on a character list (get_text only emits newline
separators, so newline is the only line boundary that occurs). -/
def splitLinesAux : List Char → List Char → List (List Char)
  | [], acc => [acc.reverse]
  | c :: cs, acc =>
    if c == '\n' then acc.reverse :: splitLinesAux cs []
    else splitLinesAux cs (c :: acc)

/-- Lines 134-135: strip each line and drop blank lines. -/
def collapseLines (t : String) : String :=
  String.intercalate "\n"
    (((splitLinesAux t.data []).map (fun l => String.mk (trimChars l))).filter
      (fun l => l != ""))

/-- Lines 145-147: metadata header written before the text (capture
timestamp abstracted to a fixed placeholder). -/
def metaHeader (url : Url) : String :=
  "URL: " ++ url.render ++ "\n" ++ "time: [ts]\n" ++ String.mk (List.replicate 50 '=') ++ "\n\n"

/-- Lines 138-148: the text file persisted for one page. -/
def textFileFor (url : Url) (text : String) : FileWrite :=
  { name := get_url_hash url ++ "_ts.txt", content := metaHeader url ++ text }

/-- Result of extract_text: the returned string, the document after the
destructive script/style removal, and the files it wrote. -/
structure TextResult where
  text : String
  doc : List Node
  files : List FileWrite
deriving DecidableEq, Repr

/-- Lines 115-151 (extract_text): strips script/style from the shared
document, computes the collapsed text, and writes one text file. -/
def extract_text (doc : List Node) (url : Url) : TextResult :=
  let doc2 := stripTags doc
  let text := collapseLines (get_text doc2)
  { text := text, doc := doc2, files := [textFileFor url text] }

/-- Lines 184-236 (download_image), serialized: given the shared hash set
and one outcome, returns (persisted?, new hash set).  Transient failures
and non-image content types are rejected without touching the set; a body
whose digest is already present is a duplicate; otherwise the digest is
recorded and the file persisted. -/
def download_image (hashes : List (List Nat)) (o : ImgOutcome) : Bool × List (List Nat) :=
  match o with
  | ImgOutcome.fetchFail => (false, hashes)
  | ImgOutcome.notImage => (false, hashes)
  | ImgOutcome.body data =>
    let h := get_image_hash data
    if h ∈ hashes then (false, hashes)
    else (true, hashes ++ [h])

/-- Lines 153-182 (extract_images), with the worker pool serialized:
folds download_image over the image outcomes of the page, counting successes. -/
def extract_images (hashes : List (List Nat)) (imgs : List ImgOutcome) : Nat × List (List Nat) :=
  imgs.foldl
    (fun acc o =>
      let r := download_image acc.2 o
      (acc.1 + (if r.1 then 1 else 0), r.2))
    (0, hashes)

/-- Lines 238-260 (extract_links): keep resolved anchors that are
absolute http/https URLs on the same netloc as the page URL. -/
def extract_links (anchors : List Url) (base : Url) : List Url :=
  anchors.filter (fun u => isHttpUrl u && sameNetloc u base)

/-- Loop guard of line 279: the loop stops when the frontier is empty or
the visited set has reached max_pages. -/
def crawlDone (cfg : Config) (s : CrawlState) : Bool :=
  s.queue.isEmpty || decide (cfg.max_pages ≤ s.visited.length)

/-- Lines 300-305: the frontier entries appended after a successful
fetch — when depth < max_depth, the extracted same-origin links that are
not yet visited, paired with depth + 1 (visited2 is the visited set as it
stands at line 304, i.e. already containing the fetched url). -/
def crawlFresh (cfg : Config) (url : Url) (depth : Nat) (visited2 : List Url)
    (page : Page) : List (Url × Nat) :=
  if depth < cfg.max_depth then
    ((extract_links page.anchors url).filter (fun l => decide (l ∉ visited2))).map
      (fun l => (l, depth + 1))
  else []

/-- One iteration body of crawl (lines 280-308) for a dequeued head
(url, depth) with remaining frontier rest, with download_page
(lines 88-113) inlined.  The line-99 pre-check returns (None, None)
without issuing a GET and crawl counts it as an error; a failed GET
(web url = none) is logged in fetchLog and counted as an error; a
successful GET marks the url visited (line 108, after the fetch),
extracts and persists the text, runs the image phase, and, when
depth < max_depth, appends the not-yet-visited same-origin links. -/
def crawlIter (cfg : Config) (web : Url → Option Page)
    (url : Url) (depth : Nat) (rest : List (Url × Nat)) (s : CrawlState) : CrawlState :=
  if url ∈ s.visited then
    { s with queue := rest }
  else if url ∈ s.visited ∨ cfg.max_pages ≤ s.visited.length ∨ cfg.max_depth < depth then
    { s with queue := rest,
             stats := { s.stats with errors := s.stats.errors + 1 },
             passedCheck := s.passedCheck + 1 }
  else
    match web url with
    | none =>
      { s with queue := rest,
               stats := { s.stats with errors := s.stats.errors + 1 },
               fetchLog := s.fetchLog ++ [(url, depth)],
               passedCheck := s.passedCheck + 1 }
    | some page =>
      { queue := rest ++ crawlFresh cfg url depth (s.visited ++ [url]) page,
        visited := s.visited ++ [url],
        image_hashes := (extract_images s.image_hashes page.images).2,
        stats := { pages_crawled := s.stats.pages_crawled + 1,
                   texts_saved := s.stats.texts_saved + 1,
                   images_downloaded :=
                     s.stats.images_downloaded + (extract_images s.image_hashes page.images).1,
                   errors := s.stats.errors },
        fetchLog := s.fetchLog ++ [(url, depth)],
        enqLog := s.enqLog ++ crawlFresh cfg url depth (s.visited ++ [url]) page,
        textLog := s.textLog ++ (extract_text page.doc url).files,
        passedCheck := s.passedCheck + 1 }

/-- One iteration of the while loop: pop the head and run the body. -/
def crawlStep (cfg : Config) (web : Url → Option Page) (s : CrawlState) : CrawlState :=
  match s.queue with
  | [] => s
  | (url, depth) :: rest => crawlIter cfg web url depth rest s

/-- The while loop of crawl (lines 279-308), fuelled: none means the
fuel ran out before the guard became false. -/
def crawlLoop (cfg : Config) (web : Url → Option Page) : Nat → CrawlState → Option CrawlState
  | 0, s => if crawlDone cfg s then some s else none
  | fuel + 1, s =>
    if crawlDone cfg s then some s
    else crawlLoop cfg web fuel (crawlStep cfg web s)

/-- Lines 269-277: the initial state of crawl. -/
def initState (cfg : Config) : CrawlState :=
  { queue := [(cfg.base_url, 0)],
    visited := [],
    image_hashes := [],
    stats := { pages_crawled := 0, texts_saved := 0, images_downloaded := 0, errors := 0 },
    fetchLog := [],
    enqLog := [],
    textLog := [],
    passedCheck := 0 }

/-- A whole run of crawl from the seed, with the given fuel. -/
def crawlRun (cfg : Config) (web : Url → Option Page) (fuel : Nat) : Option CrawlState :=
  crawlLoop cfg web fuel (initState cfg)

/-!
Small-step model of the concurrent image workers of one page batch
(extract_images lines 167-180 submits download_image to a thread pool).
Inside download_image the membership test of line 208 and the insert of
line 212 are separate operations on the shared set self.image_hashes with
no lock between them, so a thread switch can fall between them.  A worker
is therefore two atomic actions: checking the shared hash set, and (when
the check passed) inserting its digest and persisting its file. -/

/-- Program counter of one image worker. -/
inductive WorkerPhase where
  | ready
  | admitted
  | rejected
  | finished
deriving DecidableEq, Repr

/-- State shared by the workers of one batch: the crawler hash set and
the image files persisted so far. -/
structure ImgShared where
  image_hashes : List (List Nat)
  image_files : List (Url × List Nat)
deriving DecidableEq, Repr

/-- Image batch of one page: the shared state plus, per worker, the job
(image URL and response bytes, already validated as image/) and phase. -/
structure ImgBatch where
  shared : ImgShared
  workers : List ((Url × List Nat) × WorkerPhase)
deriving DecidableEq, Repr

/-- Let worker i take its next atomic action.  ready: evaluate the
line-208 membership check.  admitted: perform lines 212-233 (set-insert
the digest and persist the file).  rejected/finished workers are done. -/
def imgWorkerStep (b : ImgBatch) (i : Nat) : ImgBatch :=
  match b.workers.get? i with
  | none => b
  | some (job, ph) =>
    match ph with
    | WorkerPhase.ready =>
      if get_image_hash job.2 ∈ b.shared.image_hashes then
        { b with workers := b.workers.set i (job, WorkerPhase.rejected) }
      else
        { b with workers := b.workers.set i (job, WorkerPhase.admitted) }
    | WorkerPhase.admitted =>
      let h := get_image_hash job.2
      { shared :=
          { image_hashes :=
              if h ∈ b.shared.image_hashes then b.shared.image_hashes
              else b.shared.image_hashes ++ [h],
            image_files := b.shared.image_files ++ [(job.1, job.2)] },
        workers := b.workers.set i (job, WorkerPhase.finished) }
    | WorkerPhase.rejected => b
    | WorkerPhase.finished => b

/-- Run a batch under a given interleaving of worker actions. -/
def runImgSchedule (b : ImgBatch) (sched : List Nat) : ImgBatch :=
  sched.foldl imgWorkerStep b

/-!
Concrete fixtures used by counterexamples and witnesses.
-/

/-- Seed URL of the concrete runs. -/
def uA : Url := { scheme := "http", host := "a.com", port := "", path := "/" }

def uB : Url := { scheme := "http", host := "a.com", port := "", path := "/b" }

def uC : Url := { scheme := "http", host := "a.com", port := "", path := "/c" }

def uD : Url := { scheme := "http", host := "a.com", port := "", path := "/d" }

/-- A cross-origin URL (different host than the seed). -/
def uX : Url := { scheme := "http", host := "b.com", port := "", path := "/x" }

/-- The empty page: no text nodes, no links, no images. -/
def emptyPage : Page := { doc := [], anchors := [], images := [] }

/-- A web where every URL is unreachable (the seed GET fails). -/
def webFail : Url → Option Page := fun _ => none

/-- Config with seed uA, max_pages 1, max_depth 2. -/
def cfgS : Config := { base_url := uA, max_pages := 1, max_depth := 2 }

/-- Final state of the run of cfgS against webFail: the seed is dequeued,
passes the duplicate check, its GET is issued and fails, one error is
recorded and the seed is never marked visited. -/
def resFail : CrawlState :=
  { queue := [],
    visited := [],
    image_hashes := [],
    stats := { pages_crawled := 0, texts_saved := 0, images_downloaded := 0, errors := 1 },
    fetchLog := [(uA, 0)],
    enqLog := [],
    textLog := [],
    passedCheck := 1 }

/-- A page linking to uB and to the cross-origin uX, with no text and no
images. -/
def pageL : Page := { doc := [], anchors := [uB, uX], images := [] }

/-- A web where the seed serves pageL and uB is unreachable. -/
def webL : Url → Option Page := fun u =>
  if u = uA then some pageL else none

/-- Config with seed uA, max_pages 3, max_depth 2. -/
def cfgL : Config := { base_url := uA, max_pages := 3, max_depth := 2 }

/-- Final state of the run of cfgL against webL: the seed succeeds, uB is
enqueued (uX is dropped by the origin filter), then the GET of uB fails. -/
def resL : CrawlState :=
  { queue := [],
    visited := [uA],
    image_hashes := [],
    stats := { pages_crawled := 1, texts_saved := 1, images_downloaded := 0, errors := 1 },
    fetchLog := [(uA, 0), (uB, 1)],
    enqLog := [(uB, 1)],
    textLog := [textFileFor uA ""],
    passedCheck := 2 }

-- (moved)

/-- A web where the seed links to uB, uC and uD, all three unreachable. -/
def web2 : Url → Option Page := fun u =>
  if u = uA then some { doc := [], anchors := [uB, uC, uD], images := [] } else none

/-- Config with seed uA, max_pages 2, max_depth 2. -/
def cfg2 : Config := { base_url := uA, max_pages := 2, max_depth := 2 }

/-- A web where the seed links to uB and uC, uC links to uB, and uB is
unreachable: uB fails on its first GET and is re-discovered via uC. -/
def web3 : Url → Option Page := fun u =>
  if u = uA then some { doc := [], anchors := [uB, uC], images := [] }
  else if u = uC then some { doc := [], anchors := [uB], images := [] }
  else none

/-- Config with seed uA, max_pages 3, max_depth 2. -/
def cfg3 : Config := { base_url := uA, max_pages := 3, max_depth := 2 }

/-- A page embedding a single image whose GET fails. -/
def pageImg : Page := { doc := [], anchors := [], images := [ImgOutcome.fetchFail] }

/-- A web whose single page embeds one image whose GET fails. -/
def webImg : Url → Option Page := fun u =>
  if u = uA then some pageImg else none

/-- A document with a script node, used against extract_text. -/
def docX : List Node := [{ tag := "script", text := "bad" }, { tag := "p", text := "hi" }]

/-- A state whose frontier head sits exactly at max_depth of cfgL, about
to fetch the link-bearing pageL. -/
def sMax : CrawlState :=
  { queue := [(uA, 2)],
    visited := [],
    image_hashes := [],
    stats := { pages_crawled := 0, texts_saved := 0, images_downloaded := 0, errors := 0 },
    fetchLog := [],
    enqLog := [],
    textLog := [],
    passedCheck := 0 }

/-- The image batch of one page with two workers whose downloads return
byte-identical bodies under different URLs. -/
def dupBatch : ImgBatch :=
  { shared := { image_hashes := [], image_files := [] },
    workers := [((uB, [7, 7]), WorkerPhase.ready), ((uC, [7, 7]), WorkerPhase.ready)] }

/-!
Helper lemmas about the loop.
-/

theorem crawlDone_false (cfg : Config) (s : CrawlState) :
    crawlDone cfg s = false ↔ s.queue ≠ [] ∧ s.visited.length < cfg.max_pages := by
  rcases hq : s.queue with _ | ⟨y, ys⟩
  · simp [crawlDone, hq]
  · simp [crawlDone, hq]

theorem crawlLoop_succ_not_done (cfg : Config) (web : Url → Option Page)
    (fuel : Nat) (s : CrawlState) (h : crawlDone cfg s = false) :
    crawlLoop cfg web (fuel + 1) s = crawlLoop cfg web fuel (crawlStep cfg web s) := by
  simp [crawlLoop, h]

/-- Generic loop-invariant rule: a property preserved by every
non-terminal step holds of the loop result. -/
theorem crawlLoop_inv (cfg : Config) (web : Url → Option Page) (P : CrawlState → Prop)
    (hstep : ∀ s, crawlDone cfg s = false → P s → P (crawlStep cfg web s)) :
    ∀ fuel s res, crawlLoop cfg web fuel s = some res → P s → P res := by
  intro fuel
  induction fuel with
  | zero =>
    intro s res h hp
    by_cases hd : crawlDone cfg s = true
    · simp only [crawlLoop, hd, if_true, Option.some.injEq] at h
      exact h ▸ hp
    · simp only [crawlLoop, hd, if_false] at h
      simp [Bool.not_eq_true] at hd
      simp [hd] at h
  | succ f ih =>
    intro s res h hp
    by_cases hd : crawlDone cfg s = true
    · simp only [crawlLoop, hd, if_true, Option.some.injEq] at h
      exact h ▸ hp
    · have hd' : crawlDone cfg s = false := by simpa using hd
      rw [crawlLoop_succ_not_done cfg web f s hd'] at h
      exact ih (crawlStep cfg web s) res h (hstep s hd' hp)

theorem crawlStep_cons (cfg : Config) (web : Url → Option Page) (s : CrawlState)
    (url : Url) (depth : Nat) (rest : List (Url × Nat)) (h : s.queue = (url, depth) :: rest) :
    crawlStep cfg web s = crawlIter cfg web url depth rest s := by
  simp [crawlStep, h]

theorem crawlIter_visited_le (cfg : Config) (web : Url → Option Page)
    (url : Url) (depth : Nat) (rest : List (Url × Nat)) (s : CrawlState)
    (h : s.visited.length ≤ cfg.max_pages) :
    (crawlIter cfg web url depth rest s).visited.length ≤ cfg.max_pages := by
  unfold crawlIter
  split
  · exact h
  split
  · exact h
  split
  · exact h
  · rename_i hnm hpre hsc page heq
    push_neg at hpre
    obtain ⟨_, h2, _⟩ := hpre
    simp only [List.length_append, List.length_singleton]
    omega

theorem crawlStep_visited_le (cfg : Config) (web : Url → Option Page) (s : CrawlState)
    (h : s.visited.length ≤ cfg.max_pages) :
    (crawlStep cfg web s).visited.length ≤ cfg.max_pages := by
  rcases hq : s.queue with _ | ⟨⟨url, depth⟩, rest⟩
  · simpa [crawlStep, hq] using h
  · rw [crawlStep_cons cfg web s url depth rest hq]
    exact crawlIter_visited_le cfg web url depth rest s h

theorem crawlIter_visited_mono (cfg : Config) (web : Url → Option Page)
    (url : Url) (depth : Nat) (rest : List (Url × Nat)) (s : CrawlState)
    (u : Url) (h : u ∈ s.visited) :
    u ∈ (crawlIter cfg web url depth rest s).visited := by
  unfold crawlIter
  split
  · exact h
  split
  · exact h
  split
  · exact h
  · exact List.mem_append_left _ h

theorem crawlStep_visited_mono (cfg : Config) (web : Url → Option Page) (s : CrawlState)
    (u : Url) (h : u ∈ s.visited) :
    u ∈ (crawlStep cfg web s).visited := by
  rcases hq : s.queue with _ | ⟨⟨url, depth⟩, rest⟩
  · simpa [crawlStep, hq] using h
  · rw [crawlStep_cons cfg web s url depth rest hq]
    exact crawlIter_visited_mono cfg web url depth rest s u h

theorem crawlIter_visited_nodup (cfg : Config) (web : Url → Option Page)
    (url : Url) (depth : Nat) (rest : List (Url × Nat)) (s : CrawlState)
    (h : s.visited.Nodup) :
    (crawlIter cfg web url depth rest s).visited.Nodup := by
  unfold crawlIter
  split
  · exact h
  split
  · exact h
  split
  · exact h
  · rename_i hnm hpre hsc page heq
    push_neg at hpre
    obtain ⟨h1, _, _⟩ := hpre
    simpa [List.nodup_append] using ⟨h, h1⟩

theorem crawlStep_visited_nodup (cfg : Config) (web : Url → Option Page) (s : CrawlState)
    (h : s.visited.Nodup) :
    (crawlStep cfg web s).visited.Nodup := by
  rcases hq : s.queue with _ | ⟨⟨url, depth⟩, rest⟩
  · simpa [crawlStep, hq] using h
  · rw [crawlStep_cons cfg web s url depth rest hq]
    exact crawlIter_visited_nodup cfg web url depth rest s h

theorem sameNetloc_iff (a b : Url) :
    sameNetloc a b = true ↔ a.host = b.host ∧ a.port = b.port := by
  simp [sameNetloc]

theorem sameNetloc_trans {a b c : Url} (h1 : sameNetloc a b = true)
    (h2 : sameNetloc b c = true) : sameNetloc a c = true := by
  rw [sameNetloc_iff] at h1 h2 ⊢
  exact ⟨h1.1.trans h2.1, h1.2.trans h2.2⟩

theorem mem_extract_links (anchors : List Url) (base u : Url)
    (h : u ∈ extract_links anchors base) :
    u ∈ anchors ∧ isHttpUrl u = true ∧ sameNetloc u base = true := by
  simp only [extract_links, List.mem_filter, Bool.and_eq_true] at h
  exact ⟨h.1, h.2.1, h.2.2⟩

/-- Frontier entries appended by one successful fetch all carry the
netloc of the URL of the fetched page. -/
theorem crawlFresh_netloc (cfg : Config) (url : Url) (depth : Nat)
    (visited2 : List Url) (page : Page) (p : Url × Nat)
    (hp : p ∈ crawlFresh cfg url depth visited2 page) :
    sameNetloc p.1 url = true := by
  unfold crawlFresh at hp
  split at hp
  · rw [List.mem_map] at hp
    obtain ⟨l, hl, rfl⟩ := hp
    rw [List.mem_filter] at hl
    exact (mem_extract_links _ _ _ hl.1).2.2
  · exact absurd hp (List.not_mem_nil p)

/-- A page dequeued at depth = max_depth contributes no frontier entries. -/
theorem crawlFresh_at_max (cfg : Config) (url : Url) (visited2 : List Url) (page : Page) :
    crawlFresh cfg url cfg.max_depth visited2 page = [] := by
  simp [crawlFresh]

theorem crawlIter_fetch_depth (cfg : Config) (web : Url → Option Page)
    (url : Url) (depth : Nat) (rest : List (Url × Nat)) (s : CrawlState)
    (h : s.fetchLog.all (fun q => decide (q.2 ≤ cfg.max_depth)) = true) :
    (crawlIter cfg web url depth rest s).fetchLog.all
      (fun q => decide (q.2 ≤ cfg.max_depth)) = true := by
  unfold crawlIter
  split
  · exact h
  split
  · exact h
  split
  · rename_i hnm hpre hsc heq
    push_neg at hpre
    obtain ⟨_, _, h3⟩ := hpre
    simp [List.all_append, h, h3]
  · rename_i hnm hpre hsc page heq
    push_neg at hpre
    obtain ⟨_, _, h3⟩ := hpre
    simp [List.all_append, h, h3]

theorem crawlStep_fetch_depth (cfg : Config) (web : Url → Option Page) (s : CrawlState)
    (h : s.fetchLog.all (fun q => decide (q.2 ≤ cfg.max_depth)) = true) :
    (crawlStep cfg web s).fetchLog.all (fun q => decide (q.2 ≤ cfg.max_depth)) = true := by
  rcases hq : s.queue with _ | ⟨⟨url, depth⟩, rest⟩
  · simpa [crawlStep, hq] using h
  · rw [crawlStep_cons cfg web s url depth rest hq]
    exact crawlIter_fetch_depth cfg web url depth rest s h

/-- Same-origin frontier invariant: every queue and enqLog entry carries
the netloc of the seed, preserved by every step. -/
theorem crawlStep_netloc (cfg : Config) (web : Url → Option Page) (s : CrawlState)
    (h : s.queue.all (fun p => sameNetloc p.1 cfg.base_url) = true ∧
         s.enqLog.all (fun p => sameNetloc p.1 cfg.base_url) = true) :
    (crawlStep cfg web s).queue.all (fun p => sameNetloc p.1 cfg.base_url) = true ∧
    (crawlStep cfg web s).enqLog.all (fun p => sameNetloc p.1 cfg.base_url) = true := by
  obtain ⟨hque, henq⟩ := h
  rcases hq : s.queue with _ | ⟨⟨url, depth⟩, rest⟩
  · rw [hq] at hque
    constructor
    · simp only [crawlStep, hq]
      exact hque
    · simp only [crawlStep, hq]
      exact henq
  · rw [hq, List.all_cons, Bool.and_eq_true] at hque
    obtain ⟨hhead, hrest⟩ := hque
    rw [crawlStep_cons cfg web s url depth rest hq]
    have hfresh : ∀ page : Page,
        (crawlFresh cfg url depth (s.visited ++ [url]) page).all
          (fun p => sameNetloc p.1 cfg.base_url) = true := by
      intro page
      rw [List.all_eq_true]
      intro p hp
      exact sameNetloc_trans (crawlFresh_netloc cfg url depth _ page p hp) hhead
    unfold crawlIter
    split
    · exact ⟨hrest, henq⟩
    split
    · exact ⟨hrest, henq⟩
    split
    · exact ⟨hrest, henq⟩
    · rename_i hnm hpre hsc page heq
      constructor
      · simp [List.all_append, hrest, hfresh page]
      · simp [List.all_append, henq, hfresh page]

/-- texts_saved tracks pages_crawled, and textLog tracks texts_saved. -/
theorem crawlStep_texts (cfg : Config) (web : Url → Option Page) (s : CrawlState)
    (h : s.stats.texts_saved = s.stats.pages_crawled ∧
         s.textLog.length = s.stats.texts_saved) :
    (crawlStep cfg web s).stats.texts_saved = (crawlStep cfg web s).stats.pages_crawled ∧
    (crawlStep cfg web s).textLog.length = (crawlStep cfg web s).stats.texts_saved := by
  rcases hq : s.queue with _ | ⟨⟨url, depth⟩, rest⟩
  · simpa [crawlStep, hq] using h
  rw [crawlStep_cons cfg web s url depth rest hq]
  unfold crawlIter
  split
  · exact h
  split
  · exact h
  split
  · exact h
  · rename_i hnm hpre hsc page heq
    refine ⟨by simp [h.1], ?_⟩
    have hfiles : (extract_text page.doc url).files.length = 1 := rfl
    simp [List.length_append, hfiles, h.2]

/-- Every non-terminal step either shrinks the frontier at constant
visited set, or grows the visited set by exactly one. -/
theorem crawlStep_measure (cfg : Config) (web : Url → Option Page) (s : CrawlState)
    (h : crawlDone cfg s = false) :
    ((crawlStep cfg web s).visited.length = s.visited.length ∧
      (crawlStep cfg web s).queue.length < s.queue.length) ∨
    (crawlStep cfg web s).visited.length = s.visited.length + 1 := by
  obtain ⟨hq, hv⟩ := (crawlDone_false cfg s).mp h
  rcases hqe : s.queue with _ | ⟨⟨url, depth⟩, rest⟩
  · exact absurd hqe hq
  rw [crawlStep_cons cfg web s url depth rest hqe]
  unfold crawlIter
  split
  · left; exact ⟨rfl, by simp [hqe]⟩
  split
  · left; exact ⟨rfl, by simp [hqe]⟩
  split
  · left; exact ⟨rfl, by simp [hqe]⟩
  · right
    simp [List.length_append]

/-- Whatever the web and the starting state, enough fuel makes the loop
reach its guard: the crawl terminates on every input. -/
theorem crawlLoop_total (cfg : Config) (web : Url → Option Page) :
    ∀ a q s, cfg.max_pages - s.visited.length ≤ a → s.queue.length ≤ q →
      ∃ fuel, (crawlLoop cfg web fuel s).isSome = true := by
  intro a
  induction a with
  | zero =>
    intro q s ha _
    refine ⟨0, ?_⟩
    have hd : crawlDone cfg s = true := by
      by_contra hc
      have hcf : crawlDone cfg s = false := by simpa using hc
      have h2 := ((crawlDone_false cfg s).mp hcf).2
      omega
    simp [crawlLoop, hd]
  | succ a iha =>
    intro q
    induction q with
    | zero =>
      intro s ha hq
      have hnil : s.queue = [] := List.length_eq_zero.mp (Nat.le_zero.mp hq)
      refine ⟨0, ?_⟩
      have hd : crawlDone cfg s = true := by simp [crawlDone, hnil]
      simp [crawlLoop, hd]
    | succ q ihq =>
      intro s ha hq
      by_cases hd : crawlDone cfg s = true
      · exact ⟨0, by simp [crawlLoop, hd]⟩
      · have hd' : crawlDone cfg s = false := by simpa using hd
        rcases crawlStep_measure cfg web s hd' with ⟨hv, hql⟩ | hv
        · obtain ⟨f, hf⟩ := ihq (crawlStep cfg web s) (by rw [hv]; exact ha) (by omega)
          exact ⟨f + 1, by rw [crawlLoop_succ_not_done cfg web f s hd']; exact hf⟩
        · have hlt := ((crawlDone_false cfg s).mp hd').2
          obtain ⟨f, hf⟩ :=
            iha (crawlStep cfg web s).queue.length (crawlStep cfg web s) (by omega) le_rfl
          exact ⟨f + 1, by rw [crawlLoop_succ_not_done cfg web f s hd']; exact hf⟩

/-- Characterization of one iteration whose dequeued url passes all
checks and whose page GET fails: one error is recorded, the GET is
logged, everything else (visited in particular) is unchanged. -/
theorem crawlStep_fetch_fail (cfg : Config) (web : Url → Option Page) (s : CrawlState)
    (url : Url) (depth : Nat) (rest : List (Url × Nat))
    (hq : s.queue = (url, depth) :: rest) (hd : crawlDone cfg s = false)
    (hm : url ∉ s.visited) (hdep : depth ≤ cfg.max_depth) (hw : web url = none) :
    crawlStep cfg web s =
      { s with queue := rest,
               stats := { s.stats with errors := s.stats.errors + 1 },
               fetchLog := s.fetchLog ++ [(url, depth)],
               passedCheck := s.passedCheck + 1 } := by
  have hlt := ((crawlDone_false cfg s).mp hd).2
  rw [crawlStep_cons cfg web s url depth rest hq]
  unfold crawlIter
  rw [if_neg hm, if_neg (by push_neg; exact ⟨hm, hlt, hdep⟩)]
  rw [hw]

/-- Characterization of one iteration whose dequeued url passes all
checks and whose page GET succeeds: the url is marked visited, the text
is persisted and counted, the image phase runs, and (below max_depth) the
unvisited same-origin links are appended to the frontier. -/
theorem crawlStep_fetch_success (cfg : Config) (web : Url → Option Page) (s : CrawlState)
    (url : Url) (depth : Nat) (rest : List (Url × Nat)) (page : Page)
    (hq : s.queue = (url, depth) :: rest) (hd : crawlDone cfg s = false)
    (hm : url ∉ s.visited) (hdep : depth ≤ cfg.max_depth) (hw : web url = some page) :
    crawlStep cfg web s =
      { queue := rest ++ crawlFresh cfg url depth (s.visited ++ [url]) page,
        visited := s.visited ++ [url],
        image_hashes := (extract_images s.image_hashes page.images).2,
        stats := { pages_crawled := s.stats.pages_crawled + 1,
                   texts_saved := s.stats.texts_saved + 1,
                   images_downloaded :=
                     s.stats.images_downloaded + (extract_images s.image_hashes page.images).1,
                   errors := s.stats.errors },
        fetchLog := s.fetchLog ++ [(url, depth)],
        enqLog := s.enqLog ++ crawlFresh cfg url depth (s.visited ++ [url]) page,
        textLog := s.textLog ++ (extract_text page.doc url).files,
        passedCheck := s.passedCheck + 1 } := by
  have hlt := ((crawlDone_false cfg s).mp hd).2
  rw [crawlStep_cons cfg web s url depth rest hq]
  unfold crawlIter
  rw [if_neg hm, if_neg (by push_neg; exact ⟨hm, hlt, hdep⟩)]
  rw [hw]

/-- Removing script and style nodes is idempotent. -/
theorem stripTags_idem (doc : List Node) : stripTags (stripTags doc) = stripTags doc := by
  simp [stripTags, List.filter_filter]

/-!
Claim theorems.
-/

/-- Claim C1, counterexample: in the run of cfgS against webFail the seed
uA is dequeued, passes the duplicate check and has its GET issued (it is
in fetchLog), the fetch fails, and the final visited set is empty — so
the url is NOT added to the visited set upon dequeue before the fetch;
a url whose fetch fails is never in visited, refuting the claim that it
is in visited regardless of fetch outcome. -/
theorem c1_counterexample :
    (crawlRun cfgS webFail 3).map (fun s => (s.fetchLog, s.visited)) =
      some ([(uA, 0)], []) := by
  decide

/-- Claim C1 (amended): a dequeued url that passes the duplicate check is
added to the visited set only after its page GET succeeds (line 108); on
a fetch failure the visited set is unchanged, so only successfully
fetched urls are ever marked visited. -/
theorem c1_visited_only_on_success (cfg : Config) (web : Url → Option Page) (s : CrawlState)
    (url : Url) (depth : Nat) (rest : List (Url × Nat))
    (hq : s.queue = (url, depth) :: rest) (hd : crawlDone cfg s = false)
    (hm : url ∉ s.visited) (hdep : depth ≤ cfg.max_depth) :
    (crawlStep cfg web s).visited =
      s.visited ++ (if (web url).isSome then [url] else []) := by
  cases hw : web url with
  | none =>
    rw [crawlStep_fetch_fail cfg web s url depth rest hq hd hm hdep hw]
    simp
  | some page =>
    rw [crawlStep_fetch_success cfg web s url depth rest page hq hd hm hdep hw]
    simp

/-- Witness for the amended theorem of C1 at the concrete failing-seed run. -/
theorem c1_witness :
    (crawlStep cfgS webFail (initState cfgS)).visited =
      (initState cfgS).visited ++ (if (webFail uA).isSome then [uA] else []) :=
  c1_visited_only_on_success cfgS webFail (initState cfgS) uA 0 [] rfl (by decide)
    (by decide) (by decide)

/-- Claim C2, counterexample: with max_pages = 2, the run of web2 issues
page GETs for the four distinct URLs uA, uB, uC, uD (the seed succeeds,
its three links all fail to fetch and hence never enter the visited set,
so the loop guard len(visited) < max_pages keeps admitting them) — the
number of distinct URLs GET-requested exceeds max_pages. -/
theorem c2_counterexample :
    (crawlRun cfg2 web2 10).map (fun s => s.fetchLog.map Prod.fst) =
        some [uA, uB, uC, uD] ∧
      ([uA, uB, uC, uD] : List Url).Nodup ∧ cfg2.max_pages = 2 := by
  decide

/-- Claim C2 (amended): the number of distinct URLs SUCCESSFULLY fetched
never exceeds max_pages.  visited is, by construction of the loop,
exactly the list of successfully fetched URLs in fetch order; GETs for
URLs whose fetch fails are not bounded by max_pages. -/
theorem c2_bounded_visits (cfg : Config) (web : Url → Option Page) (fuel : Nat)
    (res : CrawlState) (h : crawlRun cfg web fuel = some res) :
    res.visited.length ≤ cfg.max_pages :=
  crawlLoop_inv cfg web (fun t => t.visited.length ≤ cfg.max_pages)
    (fun t _ hp => crawlStep_visited_le cfg web t hp) fuel (initState cfg) res h
    (Nat.zero_le _)

/-- Witness for the amended theorem of C2 at the concrete failing-seed run. -/
theorem c2_witness : resFail.visited.length ≤ cfgS.max_pages :=
  c2_bounded_visits cfgS webFail 3 resFail (by decide)

/-- Claim C3, counterexample: in the run of web3 the URL uB is GET-
requested twice — its first fetch (discovered from the seed) fails, so uB
is not marked visited, and when uC later links to it again the crawl
issues a second GET for uB. -/
theorem c3_counterexample :
    (crawlRun cfg3 web3 10).map (fun s => (s.fetchLog.map Prod.fst).count uB) =
      some 2 := by
  decide

/-- Claim C3 (amended): a given URL is SUCCESSFULLY fetched at most once
per run — visited, the list of successfully fetched URLs in fetch order,
never holds duplicates (every GET is guarded by the membership checks of
lines 282 and 99); but a URL whose fetch failed is not in visited and a
later re-discovery issues another GET for it. -/
theorem c3_no_duplicate_success (cfg : Config) (web : Url → Option Page) (fuel : Nat)
    (res : CrawlState) (h : crawlRun cfg web fuel = some res) :
    res.visited.Nodup :=
  crawlLoop_inv cfg web (fun t => t.visited.Nodup)
    (fun t _ hp => crawlStep_visited_nodup cfg web t hp) fuel (initState cfg) res h
    List.nodup_nil

/-- Witness for the amended theorem of C3 at the concrete two-page run. -/
theorem c3_witness : resL.visited.Nodup :=
  c3_no_duplicate_success cfgL webL 4 resL (by decide)

/-- Claim C4: every page GET ever issued carries a depth ≤ max_depth
(the line-99 guard refuses deeper fetches before the GET), and a page
dequeued at depth = max_depth contributes nothing to the frontier (the
line-301 guard): its step leaves the frontier at the remaining entries
and appends nothing to the enqueue log. -/
theorem c4_depth_bound :
    (∀ (cfg : Config) (web : Url → Option Page) (fuel : Nat) (res : CrawlState),
        crawlRun cfg web fuel = some res →
        res.fetchLog.all (fun q => decide (q.2 ≤ cfg.max_depth)) = true) ∧
    (∀ (cfg : Config) (web : Url → Option Page) (s : CrawlState) (url : Url)
        (rest : List (Url × Nat)), s.queue = (url, cfg.max_depth) :: rest →
        (crawlStep cfg web s).queue = rest ∧ (crawlStep cfg web s).enqLog = s.enqLog) := by
  constructor
  · intro cfg web fuel res h
    exact crawlLoop_inv cfg web
      (fun t => t.fetchLog.all (fun q => decide (q.2 ≤ cfg.max_depth)) = true)
      (fun t _ hp => crawlStep_fetch_depth cfg web t hp) fuel (initState cfg) res h rfl
  · intro cfg web s url rest hq
    rw [crawlStep_cons cfg web s url cfg.max_depth rest hq]
    unfold crawlIter
    split
    · exact ⟨rfl, rfl⟩
    split
    · exact ⟨rfl, rfl⟩
    split
    · exact ⟨rfl, rfl⟩
    · simp [crawlFresh_at_max]

/-- Witness for C4 at concrete inputs: the fetch log of the failing-seed run
respects the bound, and a step dequeuing the link-bearing pageL at
max_depth enqueues nothing. -/
theorem c4_witness :
    resFail.fetchLog.all (fun q => decide (q.2 ≤ cfgS.max_depth)) = true ∧
    ((crawlStep cfgL webL sMax).queue = [] ∧ (crawlStep cfgL webL sMax).enqLog = sMax.enqLog) :=
  ⟨c4_depth_bound.1 cfgS webFail 3 resFail (by decide),
   c4_depth_bound.2 cfgL webL sMax uA [] rfl⟩

/-- Claim C5: the code-level race.  download_image checks the shared
image-hash set (line 208) and inserts into it (line 212) as two separate
atomic actions with no lock; under the interleaving in which both workers
of byte-identical bodies run their membership check before either
inserts, TWO files are persisted for the same content hash, while the
serialized interleaving persists exactly one — the spec requires the
check-then-insert to be one atomic critical section, which the code does
not implement. -/
theorem c5_dedup_race :
    (runImgSchedule dupBatch [0, 1, 0, 1]).shared.image_files =
        [(uB, [7, 7]), (uC, [7, 7])] ∧
      (runImgSchedule dupBatch [0, 0, 1, 1]).shared.image_files = [(uB, [7, 7])] := by
  decide

/-- Claim C6: the origin filter.  (a) every link kept by extract_links is
an absolute http/https URL with exactly the host and port of the page URL;
(b) in any run every entry ever appended to the frontier carries the
netloc of the seed — so a link whose host differs from the host of the seed is
never added to the frontier; (c) the filtering step after a successful
fetch leaves the errors statistic unchanged: dropped cross-origin links
are silent. -/
theorem c6_origin_filter :
    (∀ (anchors : List Url) (base u : Url), u ∈ extract_links anchors base →
        (u.scheme = "http" ∨ u.scheme = "https") ∧ u.host = base.host ∧ u.port = base.port) ∧
    (∀ (cfg : Config) (web : Url → Option Page) (fuel : Nat) (res : CrawlState),
        crawlRun cfg web fuel = some res →
        res.enqLog.all (fun p => sameNetloc p.1 cfg.base_url) = true) ∧
    (∀ (cfg : Config) (web : Url → Option Page) (s : CrawlState) (url : Url) (depth : Nat)
        (rest : List (Url × Nat)) (page : Page),
        s.queue = (url, depth) :: rest → crawlDone cfg s = false → url ∉ s.visited →
        depth ≤ cfg.max_depth → web url = some page →
        (crawlStep cfg web s).stats.errors = s.stats.errors) := by
  refine ⟨?_, ?_, ?_⟩
  · intro anchors base u h
    obtain ⟨_, hhttp, hnet⟩ := mem_extract_links anchors base u h
    refine ⟨?_, (sameNetloc_iff u base).mp hnet⟩
    simpa [isHttpUrl] using hhttp
  · intro cfg web fuel res h
    exact (crawlLoop_inv cfg web
      (fun t => t.queue.all (fun p => sameNetloc p.1 cfg.base_url) = true ∧
                t.enqLog.all (fun p => sameNetloc p.1 cfg.base_url) = true)
      (fun t hdone hp => crawlStep_netloc cfg web t hp) fuel (initState cfg) res h
      (by simp [initState, sameNetloc])).2
  · intro cfg web s url depth rest page hq hd hm hdep hw
    rw [crawlStep_fetch_success cfg web s url depth rest page hq hd hm hdep hw]

/-- Witness for C6 at concrete inputs: the filter keeps uB against base
uA; the run of webL only ever enqueued seed-netloc entries; and the
successful seed step of webL records no error. -/
theorem c6_witness :
    ((uB.scheme = "http" ∨ uB.scheme = "https") ∧ uB.host = uA.host ∧ uB.port = uA.port) ∧
    resL.enqLog.all (fun p => sameNetloc p.1 cfgL.base_url) = true ∧
    (crawlStep cfgL webL (initState cfgL)).stats.errors = (initState cfgL).stats.errors :=
  ⟨c6_origin_filter.1 [uB, uX] uA uB (by decide),
   c6_origin_filter.2.1 cfgL webL 4 resL (by decide),
   c6_origin_filter.2.2 cfgL webL (initState cfgL) uA 0 [] pageL rfl (by decide) (by decide)
     (by decide) rfl⟩

/-- Claim C7, counterexample: the single page of webImg embeds one image
whose GET fails — a transient fetch error — yet the finished run reports
errors = 0: download_image (lines 234-236) swallows its exceptions and
returns False without touching the errors statistic, so not every
transient fetch error of the run increments errors. -/
theorem c7_counterexample :
    pageImg.images = [ImgOutcome.fetchFail] ∧
      (crawlRun cfgS webImg 3).map (fun s => (s.stats.errors, s.stats.pages_crawled)) =
        some (0, 1) := by
  decide

/-- Claim C7 (amended): a transient PAGE-fetch error increments errors by
exactly one, leaves the other statistics and the visited set unchanged,
abandons that url (the loop moves to the remaining frontier) and is never
fatal — the loop simply continues on the successor state; a transient
IMAGE-fetch error is swallowed by download_image: the image is skipped
with no persist and no change to the hash set, and no error is counted. -/
theorem c7_fetch_error_handling :
    (∀ (cfg : Config) (web : Url → Option Page) (s : CrawlState) (url : Url) (depth : Nat)
        (rest : List (Url × Nat)) (fuel : Nat),
        s.queue = (url, depth) :: rest → crawlDone cfg s = false → url ∉ s.visited →
        depth ≤ cfg.max_depth → web url = none →
        (crawlStep cfg web s).stats.errors = s.stats.errors + 1 ∧
        (crawlStep cfg web s).stats.pages_crawled = s.stats.pages_crawled ∧
        (crawlStep cfg web s).stats.texts_saved = s.stats.texts_saved ∧
        (crawlStep cfg web s).stats.images_downloaded = s.stats.images_downloaded ∧
        (crawlStep cfg web s).queue = rest ∧
        (crawlStep cfg web s).visited = s.visited ∧
        crawlLoop cfg web (fuel + 1) s = crawlLoop cfg web fuel (crawlStep cfg web s)) ∧
    (∀ hashes : List (List Nat),
        download_image hashes ImgOutcome.fetchFail = (false, hashes)) := by
  constructor
  · intro cfg web s url depth rest fuel hq hd hm hdep hw
    have hloop := crawlLoop_succ_not_done cfg web fuel s hd
    rw [crawlStep_fetch_fail cfg web s url depth rest hq hd hm hdep hw] at hloop
    rw [crawlStep_fetch_fail cfg web s url depth rest hq hd hm hdep hw]
    exact ⟨rfl, rfl, rfl, rfl, rfl, rfl, hloop⟩
  · intro hashes
    rfl

/-- Witness for the amended theorem of C7 at the concrete failing-seed step. -/
theorem c7_witness :
    ((crawlStep cfgS webFail (initState cfgS)).stats.errors =
        (initState cfgS).stats.errors + 1 ∧
      (crawlStep cfgS webFail (initState cfgS)).stats.pages_crawled =
        (initState cfgS).stats.pages_crawled ∧
      (crawlStep cfgS webFail (initState cfgS)).stats.texts_saved =
        (initState cfgS).stats.texts_saved ∧
      (crawlStep cfgS webFail (initState cfgS)).stats.images_downloaded =
        (initState cfgS).stats.images_downloaded ∧
      (crawlStep cfgS webFail (initState cfgS)).queue = [] ∧
      (crawlStep cfgS webFail (initState cfgS)).visited = (initState cfgS).visited ∧
      crawlLoop cfgS webFail 1 (initState cfgS) =
        crawlLoop cfgS webFail 0 (crawlStep cfgS webFail (initState cfgS))) ∧
    download_image [] ImgOutcome.fetchFail = (false, []) :=
  ⟨c7_fetch_error_handling.1 cfgS webFail (initState cfgS) uA 0 [] 0 rfl (by decide)
      (by decide) (by decide) rfl,
   c7_fetch_error_handling.2 []⟩

/-- Claim C8, counterexample: on a document holding a script node and a
text node, extract_text persists a file (its write list is not empty:
lines 143-148 write the text file inside extract_text) and hands back a
document differing from its input (script.extract() destroys the script
node, lines 127-128) — extract_text is not a pure side-effect-free
function of the document. -/
theorem c8_counterexample :
    ¬((extract_text docX uA).files = [] ∧ (extract_text docX uA).doc = docX) := by
  decide

/-- Claim C8 (amended): extract_text deterministically computes its text
but is not side-effect free: it persists exactly one file (the metadata
header followed by the computed text) itself, and it mutates the shared
document by removing script/style nodes — the removal being idempotent,
the text it computes depends only on the stripped document. -/
theorem c8_text_side_effects :
    ∀ (doc : List Node) (url : Url),
      (extract_text doc url).files = [textFileFor url (extract_text doc url).text] ∧
      (extract_text doc url).doc = stripTags doc ∧
      extract_text (stripTags doc) url = extract_text doc url := by
  intro doc url
  refine ⟨rfl, rfl, ?_⟩
  unfold extract_text
  rw [stripTags_idem]

/-- Claim C9, counterexample to its bounding clause: in the run of web2
four dequeues proceed past the line-282 visited check (the seed and its
three never-visited failing links), although max_pages = 2 — max_pages
does NOT bound the dequeues that proceed past the visited check, only the
successful fetches. -/
theorem c9_counterexample :
    (crawlRun cfg2 web2 10).map (fun s => s.passedCheck) = some 4 ∧
      cfg2.max_pages = 2 := by
  decide

/-- Claim C9 (amended): the crawl loop terminates on every input, cyclic
page graphs included — the visited set only grows along every step, and
because frontier entries are only added by successful fetches, which
max_pages bounds, some finite fuel always drives the loop to its guard. -/
theorem c9_termination :
    (∀ (cfg : Config) (web : Url → Option Page) (s : CrawlState),
        s.visited.all (fun u => decide (u ∈ (crawlStep cfg web s).visited)) = true) ∧
    (∀ (cfg : Config) (web : Url → Option Page) (s : CrawlState),
        ∃ fuel, (crawlLoop cfg web fuel s).isSome = true) := by
  constructor
  · intro cfg web s
    rw [List.all_eq_true]
    intro u hu
    exact decide_eq_true (crawlStep_visited_mono cfg web s u hu)
  · intro cfg web s
    exact crawlLoop_total cfg web (cfg.max_pages - s.visited.length) s.queue.length s
      le_rfl le_rfl

/-- Claim C10: in every finished run the final statistics satisfy
texts_saved = pages_crawled, and the number of text files persisted
equals texts_saved — a page counted as crawled always has its text
persisted and counted exactly once (both counters move together in the
success branch, lines 290-294, and nowhere else). -/
theorem c10_texts_eq_pages (cfg : Config) (web : Url → Option Page) (fuel : Nat)
    (res : CrawlState) (h : crawlRun cfg web fuel = some res) :
    res.stats.texts_saved = res.stats.pages_crawled ∧
    res.textLog.length = res.stats.texts_saved :=
  crawlLoop_inv cfg web
    (fun t => t.stats.texts_saved = t.stats.pages_crawled ∧
              t.textLog.length = t.stats.texts_saved)
    (fun t _ hp => crawlStep_texts cfg web t hp) fuel (initState cfg) res h ⟨rfl, rfl⟩

/-- Witness for C10 at the concrete run of webL (one page crawled, one
text saved, one text file persisted). -/
theorem c10_witness :
    resL.stats.texts_saved = resL.stats.pages_crawled ∧
    resL.textLog.length = resL.stats.texts_saved :=
  c10_texts_eq_pages cfgL webL 4 resL (by decide)

end WebCrawler
